import Mathlib

/-!
Verification of the jira-timesheet-ui multi-step form against its
natural-language specification.

The canonical 4-step form is the React component in src/unnamed/part_000
(steps 1=Setup, 2=Log Ticket, 3=Review, 4=Success).  Strings are embedded
as `List Char`; React `useState` state is embedded as an explicit record
`FormState`, and every event handler becomes a pure function from state
(plus the data the environment supplies: typed text, the fresh id from
`Date.now()`, the outcome of the network boundary) to state together with
its observable effects (boundary calls, toasts, dialogs).

The sanitize helpers imported from `@/utils/sanitize` are not part of the
repository snapshot; they are modelled from the specification (section 4.1)
and each such definition carries a doc comment saying so.
-/

/-- Strings are embedded as lists of characters. -/
abbrev Str := List Char

/-- Convert a Lean string literal to the embedded string type. -/
def str (s : String) : Str := s.toList

/-- ASCII whitespace, embedding the `\s` character class used by
`String.prototype.trim` and the regular expressions in the source
(restricted to the ASCII whitespace characters). -/
def isWsC (c : Char) : Bool := c = ' ' || c = '\t' || c = '\n' || c = '\r'

/-- The literal `/` of the date grammar. -/
def isSlash (c : Char) : Bool := c = '/'

/-- Characters allowed in an account identifier (alphanumeric plus a small
punctuation set). -/
def isAccountChar (c : Char) : Bool := c.isAlphanum || c = '.' || c = '_' || c = '-'

/-- Characters allowed in a Jira ticket identifier. -/
def isTicketIdChar (c : Char) : Bool := c.isAlphanum || c = '-' || c = '_'

/-- Remove leading and trailing whitespace (embeds `String.prototype.trim`). -/
def trimStr (cs : Str) : Str := ((cs.dropWhile isWsC).reverse.dropWhile isWsC).reverse

/-- Drop the first of two adjacent whitespace characters, repeatedly, so that
every maximal whitespace run keeps exactly its last character. -/
def squeeze : Str → Str
  | [] => []
  | [c] => [c]
  | a :: b :: r => if isWsC a && isWsC b then squeeze (b :: r) else a :: squeeze (b :: r)

/-- Collapse every internal whitespace run to a single space character. -/
def collapseWs (cs : Str) : Str := (squeeze cs).map (fun c => if isWsC c then ' ' else c)

/-- Split a character list at every comma: returns the first segment and the
list of the remaining segments (embeds `String.prototype.split(',')`). -/
def splitCommaAux : Str → Str × List Str
  | [] => ([], [])
  | c :: r =>
    let p := splitCommaAux r
    if c = ',' then ([], p.1 :: p.2) else (c :: p.1, p.2)

/-- Rejoin segments with the canonical `", "` separator. -/
def joinSegs : List Str → Str
  | [] => []
  | [t] => t
  | t :: r => t ++ ',' :: ' ' :: joinSegs r

/-- Modelled from the spec: `sanitizeAccount` from `@/utils/sanitize` is not in
the snapshot.  Spec 4.1: trims whitespace, restricts to alphanumeric plus a
small punctuation set, truncates to the maximum account-name length (128,
matching `Step1Schema`). -/
def sanitizeAccount (raw : Str) : Str := ((trimStr raw).filter isAccountChar).take 128

/-- Modelled from the spec: `sanitizeToken` from `@/utils/sanitize` is not in
the snapshot.  Spec 4.1: trims whitespace and caps the length (256, matching
`Step1Schema`); no character-class restriction since tokens are opaque. -/
def sanitizeToken (raw : Str) : Str := (trimStr raw).take 256

/-- Modelled from the spec: `sanitizeDescription` from `@/utils/sanitize` is
not in the snapshot.  Spec 4.1: trims, collapses excessive internal
whitespace, truncates to the maximum length (1000, matching `TicketSchema`). -/
def sanitizeDescription (raw : Str) : Str := (collapseWs (trimStr raw)).take 1000

/-- Modelled from the spec: `sanitizeTicketId` from `@/utils/sanitize` is not
in the snapshot.  Spec 4.1: trims, preserves case, restricts to the
ticket-identifier character set, truncates to the maximum length (128). -/
def sanitizeTicketId (raw : Str) : Str := ((trimStr raw).filter isTicketIdChar).take 128

/-- Modelled from the spec: `sanitizeDates` from `@/utils/sanitize` is not in
the snapshot.  Spec 4.1: trims each comma-separated segment, removes empty
segments, rejoins with a canonical `", "` separator. -/
def sanitizeDates (raw : Str) : Str :=
  joinSegs ((((splitCommaAux raw).1 :: (splitCommaAux raw).2).map trimStr).filter (· ≠ []))

/-- Modelled from the spec: `sanitizeHours` from `@/utils/sanitize` is not in
the snapshot.  Spec 4.1: parses the raw string-or-number input to a floating
value (`none` stands for non-numeric input), clamps to `[0.25, 8]`, rounds to
the nearest quarter-hour increment; non-numeric input sanitizes to the
minimum 0.25. -/
def sanitizeHours (raw : Option ℚ) : ℚ :=
  match raw with
  | none => 1 / 4
  | some q =>
    ((((4 * (if q < 1 / 4 then 1 / 4 else if 8 < q then 8 else q) + 1 / 2 : ℚ).floor : ℤ) : ℚ) / 4)

/-! ## The date-list recognizer

`isValidDatesList` is imported from `@/utils/sanitize` (not in the snapshot),
but the repository does contain the date regular expression it implements, at
src/src/components/Form.tsx lines 133-141 (also src/src/pages/index.tsx):

  `/^\d{1,2}\/[A-Za-z]{3}\/\d{2}(,\s*\d{1,2}\/[A-Za-z]{3}\/\d{2})*$/`

The recognizer below is a direct deterministic embedding of that anchored
regular expression: `dateTokenRest` consumes one `\d{1,2}/[A-Za-z]{3}/\d{2}`
token from the front of the input and returns the rest; `datesLoop` consumes
the `(,\s*token)*` tail.  The `\d{1,2}` alternative is deterministic: after
two digits the next character must be `/`, and backtracking to one digit
would require the second digit itself to be `/`, which is impossible. -/

/-- Consume `[A-Za-z]{3}/\d{2}` from the front, returning the rest. -/
def myRest : Str → Option Str
  | a1 :: a2 :: a3 :: s :: y1 :: y2 :: r =>
    if a1.isAlpha && a2.isAlpha && a3.isAlpha && isSlash s && y1.isDigit && y2.isDigit then
      some r
    else none
  | _ => none

/-- Consume one date token `\d{1,2}/[A-Za-z]{3}/\d{2}` from the front,
returning the rest of the input. -/
def dateTokenRest : Str → Option Str
  | x1 :: x2 :: rest =>
    if x1.isDigit then
      if x2.isDigit then
        match rest with
        | s :: r2 => if isSlash s then myRest r2 else none
        | _ => none
      else if isSlash x2 then myRest rest
      else none
    else none
  | _ => none

/-- Consume the `(,\s*token)*$` tail of the regular expression.  The fuel
argument only bounds the recursion; `fuel ≥ cs.length` always suffices since
every iteration consumes at least the comma. -/
def datesLoop : Nat → Str → Bool
  | _, [] => true
  | 0, _ => false
  | fuel + 1, c :: r =>
    if c = ',' then
      match dateTokenRest (r.dropWhile isWsC) with
      | some r3 => datesLoop fuel r3
      | none => false
    else false

/-- The date-list validator on embedded strings: the anchored match of the
regular expression from src/src/components/Form.tsx. -/
def isValidDatesListL (cs : Str) : Bool :=
  match dateTokenRest cs with
  | some r => datesLoop cs.length r
  | none => false

/-- `isValidDatesList` on Lean string literals. -/
def isValidDatesList (s : String) : Bool := isValidDatesListL s.toList

/-! ## Claim-side characterization of the date grammar (for claim C6)

The claim describes the validator as: the string is non-empty and every
comma-separated segment matches the grammar `D{1,2}/MON/YY` with a 3-letter
month, the whitespace after each comma being optional.  The definitions below
formalise exactly that wording; they are compared with the regex embedding
above, never used to define it. -/

/-- The `MON/YY` part of the claim grammar: exactly three letters, a slash,
exactly two digits. -/
def isMYTail : Str → Bool
  | [a1, a2, a3, s, y1, y2] =>
    a1.isAlpha && a2.isAlpha && a3.isAlpha && isSlash s && y1.isDigit && y2.isDigit
  | _ => false

/-- A single date token of the claim grammar `D{1,2}/MON/YY`: one or two
digits, a slash, then `MON/YY`. -/
def isDateToken : Str → Bool
  | x1 :: x2 :: x3 :: rest =>
    (x1.isDigit && isSlash x2 && isMYTail (x3 :: rest)) ||
    (x1.isDigit && x2.isDigit && isSlash x3 && isMYTail rest)
  | _ => false

/-- The claim's characterization of the date-list validator: the string is
non-empty, the first comma-separated segment is a date token, and every later
segment is a date token after dropping the optional whitespace that follows
the comma. -/
def validDatesSpec (cs : Str) : Bool :=
  !cs.isEmpty &&
    isDateToken (splitCommaAux cs).1 &&
    (splitCommaAux cs).2.all (fun t => isDateToken (t.dropWhile isWsC))

/-- `Rat.floor` agrees with the floor of the `FloorRing` instance on `ℚ`. -/
theorem ratFloor_eq (q : ℚ) : q.floor = ⌊q⌋ := (Rat.floor_def' q).trans Rat.floor_def.symm

/-! ## The form state machine (src/unnamed/part_000)

The canonical 4-step form component.  React `useState` cells become the
fields of `FormState`; each event handler becomes a pure function. -/

/-- The `typeOfWork` enumeration of the canonical form (`TicketSchema` has
`z.enum(['Create', 'Review', 'Study'])`). -/
inductive WorkType where
  | create
  | review
  | study
deriving DecidableEq, Repr

/-- A ticket entry (`interface Ticket` in src/unnamed/part_000). -/
structure Ticket where
  id : Str
  typeOfWork : WorkType
  description : Str
  timeSpend : ℚ
  ticketId : Str
deriving DecidableEq, Repr

/-- The `fieldErrors` record, embedded as a lookup function from field name
to error message. -/
def ErrMap := Str → Option Str

/-- Set one key of a `fieldErrors` record. -/
def setKey (m : ErrMap) (k v : Str) : ErrMap := fun k2 => if k2 = k then some v else m k2

/-- Delete one key of a `fieldErrors` record. -/
def delKey (m : ErrMap) (k : Str) : ErrMap := fun k2 => if k2 = k then none else m k2

/-- Object-spread merge `{...prev, ...kvs}`: later keys overwrite earlier. -/
def mergeErrs (m : ErrMap) (kvs : List (Str × Str)) : ErrMap :=
  kvs.foldl (fun acc kv => setKey acc kv.1 kv.2) m

/-- React component state.  Steps: 1 = Setup, 2 = Log Ticket, 3 = Review,
4 = Success. -/
structure FormState where
  step : Nat
  username : Str
  token : Str
  dates : Str
  tickets : List Ticket
  currentTicket : Ticket
  isSubmitting : Bool
  fieldErrors : ErrMap

/-- The initial / reset value of `currentTicket`. -/
def defaultTicket : Ticket :=
  { id := [], typeOfWork := WorkType.create, description := [], timeSpend := 1 / 4,
    ticketId := [] }

/-- The component state on mount. -/
def initialState : FormState :=
  { step := 1, username := [], token := [], dates := [], tickets := [],
    currentTicket := defaultTicket, isSubmitting := false, fieldErrors := fun _ => none }

/-- The issues `TicketSchema.parse` raises on a ticket, as (field, message)
pairs in schema declaration order (`id` and `typeOfWork` never fail: `id` is
optional and `typeOfWork` is enum-typed). -/
def ticketIssues (t : Ticket) : List (Str × Str) :=
  (if t.description.length < 1 then [(str "description", str "Description is required")]
   else if t.description.length > 1000 then [(str "description", str "Description too long")]
   else []) ++
  (if t.timeSpend < 1 / 4 then [(str "timeSpend", str "Min 0.25 hour")]
   else if 8 < t.timeSpend then [(str "timeSpend", str "Max 8 hours")]
   else []) ++
  (if t.ticketId.length < 1 then [(str "ticketId", str "Ticket ID is required")]
   else if t.ticketId.length > 128 then [(str "ticketId", str "Ticket ID too long")]
   else [])

/-- The issues `Step1Schema.parse` raises on the sanitized credentials. -/
def step1Issues (u t : Str) : List (Str × Str) :=
  (if u.length < 1 then [(str "username", str "Username is required")]
   else if u.length > 128 then [(str "username", str "Username too long")]
   else []) ++
  (if t.length < 1 then [(str "token", str "Jira Token is required")]
   else if t.length > 256 then [(str "token", str "Token too long")]
   else [])

/-- The issues `DatesSchema.parse` raises on a dates string. -/
def datesIssues (d : Str) : List (Str × Str) :=
  if d.length < 1 then [(str "dates", str "Dates are required")]
  else if isValidDatesListL d then []
  else [(str "dates", str "Dates must be in format: 20/Aug/25, 21/Aug/25, 22/Aug/25")]

/-- The submission payload assembled by `handleSubmit`. -/
structure Payload where
  username : Str
  token : Str
  dates : Str
  tickets : List Ticket

/-- The issues `SubmitPayloadSchema.parse` raises on a payload.  An issue of
a nested ticket element has path `['tickets', i, field]`, so
`zodToFieldErrors` keys it under `tickets`; only the messages of nested
issues survive. -/
def payloadIssues (p : Payload) : List (Str × Str) :=
  step1Issues p.username p.token ++
  datesIssues p.dates ++
  (if p.tickets.length < 1 then [(str "tickets", str "Please add at least one ticket")]
   else ((p.tickets.map ticketIssues).flatten).map (fun kv => (str "tickets", kv.2)))

/-- The sanitized payload `handleSubmit` builds from the current state. -/
def mkPayload (s : FormState) : Payload :=
  { username := sanitizeAccount s.username, token := sanitizeToken s.token,
    dates := sanitizeDates s.dates,
    tickets := s.tickets.map (fun t =>
      { id := t.id, typeOfWork := t.typeOfWork,
        description := sanitizeDescription t.description,
        timeSpend := sanitizeHours (some t.timeSpend),
        ticketId := sanitizeTicketId t.ticketId }) }

/-- The `sanitized` draft object built at the top of `handleAddTicket`
(src/unnamed/part_000 lines 140-146): every sanitizable field of the draft is
sanitized, `typeOfWork` is copied (it is enum-typed) and `id` is blanked. -/
def sanitizeDraft (t : Ticket) : Ticket :=
  { id := [], typeOfWork := t.typeOfWork,
    description := sanitizeDescription t.description,
    timeSpend := sanitizeHours (some t.timeSpend),
    ticketId := sanitizeTicketId t.ticketId }

/-- `handleAddTicket` (src/unnamed/part_000 lines 138-177).  `freshId` is the
`Date.now().toString()` value supplied by the environment. -/
def handleAddTicket (s : FormState) (freshId : Str) : FormState :=
  let sanitized : Ticket := sanitizeDraft s.currentTicket
  if ticketIssues sanitized = [] then
    { s with
      fieldErrors :=
        delKey (delKey (delKey (delKey s.fieldErrors (str "ticketId")) (str "description"))
          (str "timeSpend")) (str "typeOfWork"),
      tickets := s.tickets ++ [{ sanitized with id := freshId }],
      currentTicket := defaultTicket }
  else
    { s with fieldErrors := mergeErrs s.fieldErrors (ticketIssues sanitized) }

/-- `handleRemoveTicket` (src/unnamed/part_000 lines 179-181). -/
def handleRemoveTicket (s : FormState) (id : Str) : FormState :=
  { s with tickets := s.tickets.filter (fun t => t.id ≠ id) }

/-- `handleNext` (src/unnamed/part_000 lines 183-204): Setup → Log Ticket. -/
def handleNext (s : FormState) : FormState :=
  let su := sanitizeAccount s.username
  let st := sanitizeToken s.token
  if step1Issues su st = [] then
    { s with
      username := su,
      token := st,
      fieldErrors := delKey (delKey s.fieldErrors (str "username")) (str "token"),
      step := 2 }
  else { s with fieldErrors := mergeErrs s.fieldErrors (step1Issues su st) }

/-- The Review button handler (src/unnamed/part_000 lines 660-678):
Log Ticket → Review.  The sanitized dates string is committed in both
branches (`setDates(safe)` precedes the parse). -/
def advanceToReview (s : FormState) : FormState :=
  let safe := sanitizeDates s.dates
  if datesIssues safe = [] then
    { s with dates := safe, fieldErrors := delKey s.fieldErrors (str "dates"), step := 3 }
  else { s with dates := safe, fieldErrors := mergeErrs s.fieldErrors (datesIssues safe) }

/-- Observable effects of one `handleSubmit` call: how many times the
submission boundary was invoked, the toast messages raised, and the dialog
shown. -/
structure SubmitFx where
  boundaryCalls : Nat
  toasts : List Str
  dialog : Option (Str × Str)

/-- The toast text of a validation failure (`err.message` of the `ZodError`,
abstracted to the joined issue messages). -/
def zodMessage (kvs : List (Str × Str)) : Str := joinSegs (kvs.map Prod.snd)

/-- `handleSubmit` (src/unnamed/part_000 lines 208-253), with the `await` of
the submission boundary resolved by the `boundary` argument (the stubbed
outcome: success, or rejection with an error message).  `setIsSubmitting(true)`
at entry is cleared by the `finally`, so the returned state carries the final
value.  On a `ZodError` the catch merges the field errors and toasts the
error message; on a boundary `Error` the merge is empty (`zodToFieldErrors`
of a non-`ZodError` is `{}`) and the error message is toasted. -/
def handleSubmit (s : FormState) (boundary : Except Str Unit) : FormState × SubmitFx :=
  let p := mkPayload s
  if payloadIssues p = [] then
    match boundary with
    | Except.ok _ =>
      ({ s with isSubmitting := false, step := 4 },
       { boundaryCalls := 1, toasts := [],
         dialog := some (str "Success", str "Timesheet submitted successfully!") })
    | Except.error msg =>
      ({ s with isSubmitting := false, fieldErrors := mergeErrs s.fieldErrors [] },
       { boundaryCalls := 1, toasts := [msg], dialog := none })
  else
    ({ s with
       isSubmitting := false,
       fieldErrors := mergeErrs s.fieldErrors (payloadIssues p) },
     { boundaryCalls := 0, toasts := [zodMessage (payloadIssues p)], dialog := none })

/-- The "Add more" button handler on the Success screen (src/unnamed/part_000
lines 786-793): the explicit reset action. -/
def resetForm (s : FormState) : FormState :=
  { s with username := [], token := [], dates := [], tickets := [], step := 1 }

/-- The `disabled` predicate of the Review screen's submit button
(src/unnamed/part_000 line 768): `tickets.length === 0 || isSubmitting`. -/
def reviewSubmitDisabled (s : FormState) : Bool :=
  decide (s.tickets.length = 0) || s.isSubmitting

/-! ## User events and traces

The remaining interaction surface of the component: the controlled-input
`onChange` handlers (each sanitizes the typed value before storing it and
clears a pending error of its own field), the Back buttons, and the event
dispatch used to state reachability invariants. -/

/-- `onChange` of the FPT account input. -/
def typeUsername (s : FormState) (raw : Str) : FormState :=
  { s with
    username := sanitizeAccount raw,
    fieldErrors := if (s.fieldErrors (str "username")).isSome
      then delKey s.fieldErrors (str "username") else s.fieldErrors }

/-- `onChange` of the Jira token input. -/
def typeToken (s : FormState) (raw : Str) : FormState :=
  { s with
    token := sanitizeToken raw,
    fieldErrors := if (s.fieldErrors (str "token")).isSome
      then delKey s.fieldErrors (str "token") else s.fieldErrors }

/-- `onChange` of the worklog-dates textarea. -/
def typeDates (s : FormState) (raw : Str) : FormState :=
  { s with
    dates := sanitizeDates raw,
    fieldErrors := if (s.fieldErrors (str "dates")).isSome
      then delKey s.fieldErrors (str "dates") else s.fieldErrors }

/-- `onChange` of the ticket-id input of the draft ticket. -/
def typeDraftTicketId (s : FormState) (raw : Str) : FormState :=
  { s with
    currentTicket := { s.currentTicket with ticketId := sanitizeTicketId raw },
    fieldErrors := if (s.fieldErrors (str "ticketId")).isSome
      then delKey s.fieldErrors (str "ticketId") else s.fieldErrors }

/-- `onChange` of the description textarea of the draft ticket. -/
def typeDraftDescription (s : FormState) (raw : Str) : FormState :=
  { s with
    currentTicket := { s.currentTicket with description := sanitizeDescription raw },
    fieldErrors := if (s.fieldErrors (str "description")).isSome
      then delKey s.fieldErrors (str "description") else s.fieldErrors }

/-- `onChange` of the time-spent input of the draft ticket (`raw` is the
parsed numeric value of the typed text, `none` when non-numeric). -/
def typeDraftHours (s : FormState) (raw : Option ℚ) : FormState :=
  { s with
    currentTicket := { s.currentTicket with timeSpend := sanitizeHours raw },
    fieldErrors := if (s.fieldErrors (str "timeSpend")).isSome
      then delKey s.fieldErrors (str "timeSpend") else s.fieldErrors }

/-- `onValueChange` of the type-of-work select. -/
def pickDraftType (s : FormState) (w : WorkType) : FormState :=
  { s with
    currentTicket := { s.currentTicket with typeOfWork := w },
    fieldErrors := if (s.fieldErrors (str "typeOfWork")).isSome
      then delKey s.fieldErrors (str "typeOfWork") else s.fieldErrors }

/-- One user-interface event of the canonical form.  Text events carry the
raw typed value, `addTicket` carries the `Date.now()` id the environment
produces, and `submit` carries the stubbed outcome of the submission
boundary. -/
inductive Act where
  | typeUsername (raw : Str)
  | typeToken (raw : Str)
  | typeDates (raw : Str)
  | typeDraftTicketId (raw : Str)
  | typeDraftDescription (raw : Str)
  | typeDraftHours (raw : Option ℚ)
  | pickDraftType (w : WorkType)
  | next
  | addTicket (freshId : Str)
  | removeTicket (id : Str)
  | review
  | submit (boundary : Except Str Unit)
  | backToSetup
  | backToLog
  | reset

/-- Event dispatch: the state after one user event. -/
def stepAct (s : FormState) : Act → FormState
  | Act.typeUsername raw => typeUsername s raw
  | Act.typeToken raw => typeToken s raw
  | Act.typeDates raw => typeDates s raw
  | Act.typeDraftTicketId raw => typeDraftTicketId s raw
  | Act.typeDraftDescription raw => typeDraftDescription s raw
  | Act.typeDraftHours raw => typeDraftHours s raw
  | Act.pickDraftType w => pickDraftType s w
  | Act.next => handleNext s
  | Act.addTicket freshId => handleAddTicket s freshId
  | Act.removeTicket id => handleRemoveTicket s id
  | Act.review => advanceToReview s
  | Act.submit b => (handleSubmit s b).1
  | Act.backToSetup => { s with step := 1 }
  | Act.backToLog => { s with step := 2 }
  | Act.reset => resetForm s

/-- The state reached from mount by a list of user events. -/
def run (acts : List Act) : FormState := acts.foldl stepAct initialState

/-! ## The mock server endpoint (src/src/pages/api/timesheet.ts) -/

/-- The request body `data = req.body` as far as the handler inspects it:
`userId` and `jiraToken` (a missing field and an empty string are both falsy,
embedded as the empty string) and `dates` (`none` when the field is missing
or not an array). -/
structure ApiBody where
  userId : Str
  jiraToken : Str
  dates : Option (List Str)

/-- An incoming request: its HTTP method and optional JSON body. -/
structure ApiRequest where
  method : Str
  body : Option ApiBody

/-- The response the handler produces: status code, `message`, the optional
`success` and `submittedDates` body fields, and the optional `Allow` header. -/
structure ApiResponse where
  status : Nat
  message : Str
  success : Option Bool
  submittedDates : Option (List Str)
  allowHeader : Option Str

/-- An error-shaped response (no `success`, no `submittedDates`). -/
def apiError (code : Nat) (m : Str) (al : Option Str) : ApiResponse :=
  { status := code, message := m, success := none, submittedDates := none, allowHeader := al }

/-- The guard `!data?.userId || !data?.jiraToken || !Array.isArray(data?.dates)
|| data.dates.length === 0` of the handler: with a missing body every
optional-chained access is falsy. -/
def apiBadBody : Option ApiBody → Bool
  | none => true
  | some d =>
    d.userId.isEmpty || d.jiraToken.isEmpty ||
      (match d.dates with
       | none => true
       | some ds => ds.isEmpty)

/-- The API route handler (src/src/pages/api/timesheet.ts lines 9-43).
`crash` models an unexpected exception raised inside the `try` block (at the
logging / artificial-delay step, after the field checks); the `catch` maps it
to a 500 response. -/
def handler (req : ApiRequest) (crash : Bool) : ApiResponse :=
  if req.method ≠ str "POST" then
    apiError 405 (str "Method Not Allowed") (some (str "POST"))
  else if apiBadBody req.body then
    apiError 400 (str "Missing required fields") none
  else if crash then
    apiError 500 (str "Internal server error") none
  else
    { status := 200, message := str "Timesheet submitted successfully",
      success := some true,
      submittedDates := (match req.body with | some d => d.dates | none => none),
      allowHeader := none }

/-! ## Helper lemmas on the validation functions and error maps -/

theorem ite_ite_nil_iff {c1 c2 : Prop} [Decidable c1] [Decidable c2]
    {a b : List (Str × Str)} (ha : a ≠ []) (hb : b ≠ []) :
    (if c1 then a else if c2 then b else []) = [] ↔ ¬c1 ∧ ¬c2 := by
  split
  · simp_all
  · split <;> simp_all

theorem ite_nil_ite_iff {c1 c2 : Prop} [Decidable c1] [Decidable c2]
    {a b : List (Str × Str)} (ha : a ≠ []) (hb : b ≠ []) :
    (if c1 then a else if c2 then [] else b) = [] ↔ ¬c1 ∧ c2 := by
  split
  · simp_all
  · split <;> simp_all

/-- `TicketSchema.parse` succeeds exactly on the documented field bounds. -/
theorem ticketIssues_nil_iff (t : Ticket) :
    ticketIssues t = [] ↔
      (1 ≤ t.description.length ∧ t.description.length ≤ 1000 ∧
       1 / 4 ≤ t.timeSpend ∧ t.timeSpend ≤ 8 ∧
       1 ≤ t.ticketId.length ∧ t.ticketId.length ≤ 128) := by
  rw [ticketIssues, List.append_eq_nil, List.append_eq_nil,
    ite_ite_nil_iff (by simp) (by simp), ite_ite_nil_iff (by simp) (by simp),
    ite_ite_nil_iff (by simp) (by simp)]
  constructor
  · rintro ⟨⟨⟨h1, h2⟩, h3, h4⟩, h5, h6⟩
    exact ⟨by omega, by omega, not_lt.mp h3, not_lt.mp h4, by omega, by omega⟩
  · rintro ⟨h1, h2, h3, h4, h5, h6⟩
    exact ⟨⟨⟨by omega, by omega⟩, not_lt.mpr h3, not_lt.mpr h4⟩, by omega, by omega⟩

/-- `Step1Schema.parse` succeeds exactly on the documented length bounds. -/
theorem step1Issues_nil_iff (u t : Str) :
    step1Issues u t = [] ↔
      (1 ≤ u.length ∧ u.length ≤ 128 ∧ 1 ≤ t.length ∧ t.length ≤ 256) := by
  rw [step1Issues, List.append_eq_nil,
    ite_ite_nil_iff (by simp) (by simp), ite_ite_nil_iff (by simp) (by simp)]
  omega

/-- `DatesSchema.parse` succeeds exactly on non-empty valid date lists. -/
theorem datesIssues_nil_iff (d : Str) :
    datesIssues d = [] ↔ (1 ≤ d.length ∧ isValidDatesListL d = true) := by
  rw [datesIssues, ite_nil_ite_iff (by simp) (by simp)]
  constructor
  · rintro ⟨h1, h2⟩
    exact ⟨by omega, h2⟩
  · rintro ⟨h1, h2⟩
    exact ⟨by omega, h2⟩

/-- The tickets block of `SubmitPayloadSchema` succeeds exactly when the list
is non-empty and every element passes `TicketSchema`. -/
theorem ticketsBlock_nil_iff (ts : List Ticket) :
    (if ts.length < 1 then [(str "tickets", str "Please add at least one ticket")]
     else ((ts.map ticketIssues).flatten).map (fun kv => (str "tickets", kv.2))) = [] ↔
      (1 ≤ ts.length ∧ ∀ t ∈ ts, ticketIssues t = []) := by
  split
  · rename_i h
    constructor
    · intro habs
      exact absurd habs (by simp)
    · rintro ⟨h1, -⟩
      omega
  · rename_i h
    rw [List.map_eq_nil_iff, List.flatten_eq_nil_iff]
    constructor
    · intro hall
      exact ⟨by omega, fun t ht => hall _ (List.mem_map_of_mem ticketIssues ht)⟩
    · rintro ⟨-, h4⟩
      intro a ha
      rcases List.mem_map.mp ha with ⟨t, ht, rfl⟩
      exact h4 t ht

/-- `SubmitPayloadSchema.parse` succeeds exactly when the credentials, the
dates string and every ticket pass their schemas and the ticket list is
non-empty. -/
theorem payloadIssues_nil_iff (p : Payload) :
    payloadIssues p = [] ↔
      (step1Issues p.username p.token = [] ∧ datesIssues p.dates = [] ∧
       1 ≤ p.tickets.length ∧ ∀ t ∈ p.tickets, ticketIssues t = []) := by
  rw [payloadIssues, List.append_eq_nil, List.append_eq_nil, ticketsBlock_nil_iff]
  tauto

theorem mergeErrs_nil (m : ErrMap) : mergeErrs m [] = m := rfl

theorem mergeErrs_cons (m : ErrMap) (a : Str × Str) (rest : List (Str × Str)) :
    mergeErrs m (a :: rest) = mergeErrs (setKey m a.1 a.2) rest := rfl

theorem mergeErrs_notin (m : ErrMap) (kvs : List (Str × Str)) (k : Str)
    (h : ∀ kv ∈ kvs, kv.1 ≠ k) : mergeErrs m kvs k = m k := by
  induction kvs generalizing m with
  | nil => rfl
  | cons a rest ih =>
    rw [mergeErrs_cons, ih _ (fun kv hkv => h kv (List.mem_cons_of_mem a hkv))]
    simp only [setKey]
    rw [if_neg (fun hk => h a (List.mem_cons_self a rest) hk.symm)]

theorem mergeErrs_isSome_of (m : ErrMap) (kvs : List (Str × Str)) (k : Str)
    (h : (m k).isSome) : (mergeErrs m kvs k).isSome := by
  induction kvs generalizing m with
  | nil => exact h
  | cons a rest ih =>
    rw [mergeErrs, List.foldl_cons]
    refine ih _ ?_
    rw [setKey]
    split
    · rfl
    · exact h

/-- Any key bound in the merged pairs is present afterwards. -/
theorem mergeErrs_mem_isSome (m : ErrMap) (kvs : List (Str × Str)) (k : Str) (v : Str)
    (hmem : (k, v) ∈ kvs) : (mergeErrs m kvs k).isSome := by
  induction kvs generalizing m with
  | nil => cases hmem
  | cons a rest ih =>
    rw [mergeErrs, List.foldl_cons]
    rcases List.mem_cons.mp hmem with heq | hmem2
    · refine mergeErrs_isSome_of _ rest k ?_
      rw [← heq, setKey, if_pos rfl]
      rfl
    · exact ih _ hmem2

/-- With pairwise-distinct keys, merging binds each key to its listed value. -/
theorem mergeErrs_lookup_nodup (m : ErrMap) (kvs : List (Str × Str))
    (hnd : (kvs.map Prod.fst).Nodup) (k v : Str) (hmem : (k, v) ∈ kvs) :
    mergeErrs m kvs k = some v := by
  induction kvs generalizing m with
  | nil => cases hmem
  | cons a rest ih =>
    rw [List.map_cons, List.nodup_cons] at hnd
    rw [mergeErrs_cons]
    rcases List.mem_cons.mp hmem with heq | hmem2
    · cases heq.symm
      have hnot : ∀ kv ∈ rest, kv.1 ≠ k := by
        intro kv hkv hk
        have hin : kv.1 ∈ List.map Prod.fst rest := List.mem_map_of_mem Prod.fst hkv
        rw [hk] at hin
        exact hnd.1 hin
      rw [mergeErrs_notin _ _ _ hnot]
      simp [setKey]
    · exact ih _ hnd.2 hmem2

/-- `sanitizeHours` is the identity on in-range quarter-hour values. -/
theorem sanitizeHours_eq_self (q : ℚ) (h1 : 1 / 4 ≤ q) (h2 : q ≤ 8)
    (k : ℤ) (hk : q = (k : ℚ) / 4) : sanitizeHours (some q) = q := by
  rw [sanitizeHours, if_neg (not_lt.mpr h1), if_neg (not_lt.mpr h2), ratFloor_eq]
  have h4 : (4 : ℚ) * q = (k : ℚ) := by rw [hk]; ring
  rw [h4, Int.floor_int_add]
  norm_num
  exact hk.symm

/-! ## Concrete states used by witnesses and counterexamples -/

/-- A schema-valid committed ticket. -/
def okTicket : Ticket :=
  { id := str "1", typeOfWork := WorkType.create, description := str "fix bug",
    timeSpend := 2, ticketId := str "PROJ-1" }

/-- A fully valid state sitting on the Review step. -/
def reviewState : FormState :=
  { step := 3, username := str "ThaoLNP5", token := str "abc123",
    dates := str "20/Aug/25, 21/Aug/25", tickets := [okTicket],
    currentTicket := defaultTicket, isSubmitting := false, fieldErrors := fun _ => none }

/-- The same state while a submit is pending (`isSubmitting = true`). -/
def busyState : FormState := { reviewState with isSubmitting := true }

/-- A state on the Success screen with a non-default draft and a stale field
error. -/
def successState : FormState :=
  { step := 4, username := str "ThaoLNP5", token := str "abc123",
    dates := str "20/Aug/25", tickets := [okTicket],
    currentTicket := { defaultTicket with description := str "x" },
    isSubmitting := false,
    fieldErrors := setKey (fun _ => none) (str "tickets") (str "oops") }

theorem sanitizeHours_two : sanitizeHours (some 2) = 2 :=
  sanitizeHours_eq_self 2 (by norm_num) (by norm_num) 8 (by norm_num)

/-- The payload `handleSubmit` builds from `reviewState`, made explicit. -/
theorem mkPayload_reviewState_tickets :
    (mkPayload reviewState).tickets =
      [{ id := str "1", typeOfWork := WorkType.create, description := str "fix bug",
         timeSpend := 2, ticketId := str "PROJ-1" }] := by
  have hd : sanitizeDescription (str "fix bug") = str "fix bug" := by decide
  have hid : sanitizeTicketId (str "PROJ-1") = str "PROJ-1" := by decide
  simp [mkPayload, reviewState, okTicket, hd, hid, sanitizeHours_two]

/-- `reviewState` passes the full submit-time validation. -/
theorem reviewState_payload_ok : payloadIssues (mkPayload reviewState) = [] := by
  rw [payloadIssues_nil_iff]
  refine ⟨?_, ?_, ?_, ?_⟩
  · rw [step1Issues_nil_iff]
    exact ⟨by decide, by decide, by decide, by decide⟩
  · rw [datesIssues_nil_iff]
    exact ⟨by decide, by decide⟩
  · rw [mkPayload_reviewState_tickets]
    simp
  · rw [mkPayload_reviewState_tickets]
    intro t ht
    rw [List.mem_singleton] at ht
    subst ht
    rw [ticketIssues_nil_iff]
    exact ⟨by decide, by decide, by norm_num, by norm_num, by decide, by decide⟩

/-! ## Claim C8 -/

/-- C8: `removeTicket(localId)` removes exactly the entries whose identity
matches; when no entry matches, the tickets list (and the rest of the state,
in particular `fieldErrors` — no error is produced) is unchanged; the
relative order of the remaining entries is preserved (the result is a
sublist); entries with a different id are all retained. -/
theorem handleRemoveTicket_spec (s : FormState) (i : Str) :
    ((∀ t ∈ s.tickets, t.id ≠ i) → (handleRemoveTicket s i).tickets = s.tickets) ∧
    List.Sublist (handleRemoveTicket s i).tickets s.tickets ∧
    (∀ t ∈ (handleRemoveTicket s i).tickets, t.id ≠ i) ∧
    (∀ t ∈ s.tickets, t.id ≠ i → t ∈ (handleRemoveTicket s i).tickets) ∧
    (handleRemoveTicket s i).fieldErrors = s.fieldErrors ∧
    (handleRemoveTicket s i).step = s.step ∧
    (handleRemoveTicket s i).username = s.username ∧
    (handleRemoveTicket s i).token = s.token ∧
    (handleRemoveTicket s i).dates = s.dates ∧
    (handleRemoveTicket s i).currentTicket = s.currentTicket ∧
    (handleRemoveTicket s i).isSubmitting = s.isSubmitting := by
  refine ⟨?_, List.filter_sublist _, ?_, ?_, rfl, rfl, rfl, rfl, rfl, rfl, rfl⟩
  · intro h
    exact List.filter_eq_self.mpr (fun a ha => decide_eq_true (h a ha))
  · intro t ht
    have ht2 : t ∈ s.tickets.filter (fun t => decide (t.id ≠ i)) := ht
    exact of_decide_eq_true (List.mem_filter.mp ht2).2
  · intro t ht hne
    exact List.mem_filter.mpr ⟨ht, decide_eq_true hne⟩

/-- Witness for C8 at a concrete state: removing a non-existent id leaves the
tickets unchanged. -/
theorem handleRemoveTicket_spec_witness :
    (∀ t ∈ reviewState.tickets, t.id ≠ str "9") ∧
    (handleRemoveTicket reviewState (str "9")).tickets = reviewState.tickets :=
  ⟨by decide, (handleRemoveTicket_spec reviewState (str "9")).1 (by decide)⟩

/-! ## Claim C5 -/

/-- C5 counterexample: at a concrete Success-screen state with a non-default
draft and a stale `tickets` field error, the "Add more" reset returns to
Setup but does NOT clear the draft (its description stays `"x"` while the
default is empty) and does NOT clear the `fieldErrors` mapping — refuting the
claim that the reset clears every field of the session state to its default. -/
theorem resetForm_leaves_draft_and_errors :
    (resetForm successState).step = 1 ∧
    (resetForm successState).currentTicket.description = str "x" ∧
    defaultTicket.description = [] ∧
    (resetForm successState).fieldErrors (str "tickets") = some (str "oops") :=
  ⟨rfl, by decide, rfl, by decide⟩

/-- C5 amended: the explicit reset taken from the Success state returns the
machine to Setup and clears the credentials, the dates and the tickets list
to their defaults, but leaves the in-progress ticket draft and the
`fieldErrors` mapping unchanged. -/
theorem resetForm_spec (s : FormState) :
    (resetForm s).step = 1 ∧ (resetForm s).username = [] ∧ (resetForm s).token = [] ∧
    (resetForm s).dates = [] ∧ (resetForm s).tickets = [] ∧
    (resetForm s).currentTicket = s.currentTicket ∧
    (resetForm s).fieldErrors = s.fieldErrors ∧
    (resetForm s).isSubmitting = s.isSubmitting :=
  ⟨rfl, rfl, rfl, rfl, rfl, rfl, rfl, rfl⟩

/-! ## Claim C1 -/

/-- C1 counterexample: at a concrete valid Review state with
`isSubmitting = true`, invoking `handleSubmit` is NOT a no-op: the submission
boundary is called (once, not zero times) and the state changes (step moves
from 3 to 4) — `handleSubmit` itself contains no `isSubmitting` guard. -/
theorem submit_while_pending_not_noop :
    busyState.isSubmitting = true ∧
    (handleSubmit busyState (Except.ok ())).2.boundaryCalls = 1 ∧
    busyState.step = 3 ∧
    (handleSubmit busyState (Except.ok ())).1.step = 4 := by
  have hp : payloadIssues (mkPayload busyState) = [] := reviewState_payload_ok
  refine ⟨rfl, ?_, rfl, ?_⟩
  · simp only [handleSubmit]
    rw [if_pos hp]
  · simp only [handleSubmit]
    rw [if_pos hp]

/-- C1 amended: while `isSubmitting` is true the Review submit button is
disabled (`tickets.length === 0 || isSubmitting`), so the surface layer
cannot issue a second `submit()`; `handleSubmit` itself performs no
idempotency check and, if invoked directly while a submit is pending, issues
another boundary call (see the counterexample). -/
theorem submitButton_disabled_while_submitting (s : FormState)
    (h : s.isSubmitting = true) : reviewSubmitDisabled s = true := by
  rw [reviewSubmitDisabled, h, Bool.or_true]

/-- Witness for the amended C1 at a concrete state. -/
theorem submitButton_disabled_while_submitting_witness :
    busyState.isSubmitting = true ∧ reviewSubmitDisabled busyState = true :=
  ⟨rfl, submitButton_disabled_while_submitting busyState rfl⟩

/-! ## Claim C2 -/

/-- C2: when the full submit-time validation passes and the submission
boundary rejects with a message, `handleSubmit` leaves the state on the
Review step, leaves every entered field (credentials, dates, the full ticket
list, the draft, `fieldErrors`) unchanged, clears `isSubmitting` back to
false, and surfaces the boundary's error message as a toast after exactly one
boundary call. -/
theorem handleSubmit_boundary_error (s : FormState) (msg : Str)
    (hstep : s.step = 3) (hok : payloadIssues (mkPayload s) = []) :
    (handleSubmit s (Except.error msg)).1.step = 3 ∧
    (handleSubmit s (Except.error msg)).1.username = s.username ∧
    (handleSubmit s (Except.error msg)).1.token = s.token ∧
    (handleSubmit s (Except.error msg)).1.dates = s.dates ∧
    (handleSubmit s (Except.error msg)).1.tickets = s.tickets ∧
    (handleSubmit s (Except.error msg)).1.currentTicket = s.currentTicket ∧
    (handleSubmit s (Except.error msg)).1.fieldErrors = s.fieldErrors ∧
    (handleSubmit s (Except.error msg)).1.isSubmitting = false ∧
    (handleSubmit s (Except.error msg)).2.toasts = [msg] ∧
    (handleSubmit s (Except.error msg)).2.boundaryCalls = 1 := by
  have h : handleSubmit s (Except.error msg) =
      ({ s with isSubmitting := false, fieldErrors := mergeErrs s.fieldErrors [] },
       { boundaryCalls := 1, toasts := [msg], dialog := none }) := by
    simp only [handleSubmit]
    rw [if_pos hok]
  rw [h]
  exact ⟨hstep, rfl, rfl, rfl, rfl, rfl, rfl, rfl, rfl, rfl⟩

/-- Witness for C2 at a concrete Review state: a boundary stub rejecting with
`"Network error"` leaves the state on Review with its single ticket and
surfaces `"Network error"`. -/
theorem handleSubmit_boundary_error_witness :
    reviewState.step = 3 ∧ payloadIssues (mkPayload reviewState) = [] ∧
    (handleSubmit reviewState (Except.error (str "Network error"))).1.step = 3 ∧
    (handleSubmit reviewState (Except.error (str "Network error"))).1.tickets
      = reviewState.tickets ∧
    (handleSubmit reviewState (Except.error (str "Network error"))).2.toasts
      = [str "Network error"] ∧
    (handleSubmit reviewState (Except.error (str "Network error"))).1.isSubmitting = false := by
  have H := handleSubmit_boundary_error reviewState (str "Network error") rfl
    reviewState_payload_ok
  exact ⟨rfl, reviewState_payload_ok, H.1, H.2.2.2.2.1, H.2.2.2.2.2.2.2.2.1,
    H.2.2.2.2.2.2.2.1⟩

/-! ## Claim C4 -/

/-- C4: when the re-sanitized aggregate fails validation, `handleSubmit`
populates `fieldErrors` with the collected issues (every issue key becomes
present), performs no step transition, keeps the entered data, and never
calls the submission boundary. -/
theorem handleSubmit_validation_abort (s : FormState) (b : Except Str Unit)
    (hbad : payloadIssues (mkPayload s) ≠ []) :
    (handleSubmit s b).2.boundaryCalls = 0 ∧
    (handleSubmit s b).1.step = s.step ∧
    (handleSubmit s b).1.username = s.username ∧
    (handleSubmit s b).1.token = s.token ∧
    (handleSubmit s b).1.dates = s.dates ∧
    (handleSubmit s b).1.tickets = s.tickets ∧
    (handleSubmit s b).1.fieldErrors
      = mergeErrs s.fieldErrors (payloadIssues (mkPayload s)) ∧
    (∀ kv ∈ payloadIssues (mkPayload s), ((handleSubmit s b).1.fieldErrors kv.1).isSome) := by
  have h : handleSubmit s b =
      ({ s with
         isSubmitting := false,
         fieldErrors := mergeErrs s.fieldErrors (payloadIssues (mkPayload s)) },
       { boundaryCalls := 0, toasts := [zodMessage (payloadIssues (mkPayload s))],
         dialog := none }) := by
    simp only [handleSubmit]
    rw [if_neg hbad]
  rw [h]
  refine ⟨rfl, rfl, rfl, rfl, rfl, rfl, rfl, ?_⟩
  intro kv hkv
  exact mergeErrs_mem_isSome _ _ kv.1 kv.2 hkv

/-- A Review state whose ticket list has been emptied. -/
def emptyTicketsState : FormState := { reviewState with tickets := [] }

/-- Witness for C4 at a concrete state with no tickets: validation fails, the
boundary is not called and the `tickets` aggregate error is set. -/
theorem handleSubmit_validation_abort_witness :
    payloadIssues (mkPayload emptyTicketsState) ≠ [] ∧
    (handleSubmit emptyTicketsState (Except.ok ())).2.boundaryCalls = 0 ∧
    ((handleSubmit emptyTicketsState (Except.ok ())).1.fieldErrors (str "tickets")).isSome := by
  have H := handleSubmit_validation_abort emptyTicketsState (Except.ok ()) (by decide)
  exact ⟨by decide, H.1,
    H.2.2.2.2.2.2.2 (str "tickets", str "Please add at least one ticket") (by decide)⟩

/-! ## Claim C3 -/

/-- The three field keys that can appear in `ticketIssues` are pairwise
distinct, whichever checks fail. -/
theorem ticketIssues_keys_nodup (t : Ticket) : ((ticketIssues t).map Prod.fst).Nodup := by
  rw [ticketIssues]
  repeat' split
  all_goals decide

/-- C3: `addTicket` sanitizes every field of the draft and validates the
sanitized values.  On any validation failure it binds a `fieldErrors` entry
for each offending ticket field (with the schema's message) and leaves both
the tickets list and the draft unchanged; on success it appends exactly one
new entry — the sanitized draft carrying the fresh synthetic id — to the end
of `tickets` and resets the draft to its defaults. -/
theorem handleAddTicket_spec (s : FormState) (freshId : Str) :
    (ticketIssues (sanitizeDraft s.currentTicket) ≠ [] →
       (handleAddTicket s freshId).tickets = s.tickets ∧
       (handleAddTicket s freshId).currentTicket = s.currentTicket ∧
       (handleAddTicket s freshId).step = s.step ∧
       ∀ kv ∈ ticketIssues (sanitizeDraft s.currentTicket),
         (handleAddTicket s freshId).fieldErrors kv.1 = some kv.2) ∧
    (ticketIssues (sanitizeDraft s.currentTicket) = [] →
       (handleAddTicket s freshId).tickets
         = s.tickets ++ [{ sanitizeDraft s.currentTicket with id := freshId }] ∧
       (handleAddTicket s freshId).currentTicket = defaultTicket ∧
       (handleAddTicket s freshId).step = s.step) := by
  constructor
  · intro hbad
    have h : handleAddTicket s freshId =
        { s with
          fieldErrors := mergeErrs s.fieldErrors (ticketIssues (sanitizeDraft s.currentTicket)) } := by
      simp only [handleAddTicket]
      rw [if_neg hbad]
    rw [h]
    refine ⟨rfl, rfl, rfl, ?_⟩
    intro kv hkv
    exact mergeErrs_lookup_nodup _ _ (ticketIssues_keys_nodup _) kv.1 kv.2 hkv
  · intro hok
    have h : handleAddTicket s freshId =
        { s with
          fieldErrors :=
            delKey (delKey (delKey (delKey s.fieldErrors (str "ticketId"))
              (str "description")) (str "timeSpend")) (str "typeOfWork"),
          tickets := s.tickets ++ [{ sanitizeDraft s.currentTicket with id := freshId }],
          currentTicket := defaultTicket } := by
      simp only [handleAddTicket]
      rw [if_pos hok]
    rw [h]
    exact ⟨rfl, rfl, rfl⟩

/-- A draft whose `ticketId` is empty (all else valid). -/
def draftBad : Ticket :=
  { id := [], typeOfWork := WorkType.create, description := str "fix bug",
    timeSpend := 2, ticketId := [] }

/-- A fully valid draft. -/
def draftOk : Ticket :=
  { id := [], typeOfWork := WorkType.create, description := str "fix bug",
    timeSpend := 2, ticketId := str "PROJ-1" }

/-- A Log Ticket state holding the invalid draft. -/
def addFailState : FormState := { initialState with step := 2, currentTicket := draftBad }

/-- A Log Ticket state holding the valid draft. -/
def addOkState : FormState := { initialState with step := 2, currentTicket := draftOk }

theorem sanitizeDraft_draftBad : sanitizeDraft draftBad = draftBad := by
  have hd : sanitizeDescription (str "fix bug") = str "fix bug" := by decide
  have hid : sanitizeTicketId ([] : Str) = [] := by decide
  simp [sanitizeDraft, draftBad, hd, hid, sanitizeHours_two]

theorem sanitizeDraft_draftOk : sanitizeDraft draftOk = draftOk := by
  have hd : sanitizeDescription (str "fix bug") = str "fix bug" := by decide
  have hid : sanitizeTicketId (str "PROJ-1") = str "PROJ-1" := by decide
  simp [sanitizeDraft, draftOk, hd, hid, sanitizeHours_two]

theorem ticketIssues_draftBad :
    ticketIssues draftBad = [(str "ticketId", str "Ticket ID is required")] := by
  rw [ticketIssues,
    if_neg (by decide : ¬(draftBad.description.length < 1)),
    if_neg (by decide : ¬(draftBad.description.length > 1000)),
    if_neg (by norm_num [draftBad] : ¬(draftBad.timeSpend < 1 / 4)),
    if_neg (by norm_num [draftBad] : ¬((8 : ℚ) < draftBad.timeSpend)),
    if_pos (by decide : draftBad.ticketId.length < 1)]
  rfl

theorem ticketIssues_draftOk : ticketIssues draftOk = [] := by
  rw [ticketIssues_nil_iff]
  exact ⟨by decide, by decide, by norm_num [draftOk], by norm_num [draftOk],
    by decide, by decide⟩

/-- Witness for C3: adding with an empty `ticketId` leaves `tickets` at its
previous length and sets the `ticketId` field error; adding a valid draft
appends exactly one entry and resets the draft to defaults. -/
theorem handleAddTicket_spec_witness :
    (ticketIssues (sanitizeDraft addFailState.currentTicket) ≠ [] ∧
     (handleAddTicket addFailState (str "7")).tickets = addFailState.tickets ∧
     (handleAddTicket addFailState (str "7")).fieldErrors (str "ticketId")
       = some (str "Ticket ID is required")) ∧
    (ticketIssues (sanitizeDraft addOkState.currentTicket) = [] ∧
     (handleAddTicket addOkState (str "7")).tickets
       = addOkState.tickets ++ [{ sanitizeDraft addOkState.currentTicket with id := str "7" }] ∧
     (handleAddTicket addOkState (str "7")).currentTicket = defaultTicket) := by
  have he : ticketIssues (sanitizeDraft addFailState.currentTicket)
      = [(str "ticketId", str "Ticket ID is required")] := by
    rw [show sanitizeDraft addFailState.currentTicket = draftBad from sanitizeDraft_draftBad,
      ticketIssues_draftBad]
  have hbad : ticketIssues (sanitizeDraft addFailState.currentTicket) ≠ [] := by
    rw [he]
    simp
  have hok : ticketIssues (sanitizeDraft addOkState.currentTicket) = [] := by
    rw [show sanitizeDraft addOkState.currentTicket = draftOk from sanitizeDraft_draftOk,
      ticketIssues_draftOk]
  have H1 := (handleAddTicket_spec addFailState (str "7")).1 hbad
  have H2 := (handleAddTicket_spec addOkState (str "7")).2 hok
  refine ⟨⟨hbad, H1.1, ?_⟩, hok, H2.1, H2.2.1⟩
  have := H1.2.2.2 (str "ticketId", str "Ticket ID is required")
    (by rw [he]; exact List.mem_singleton.mpr rfl)
  exact this

/-! ## Claim C7 -/

/-- C7: for every raw input, `sanitizeHours` lands in the quarter-hour
lattice {0.25, 0.5, ..., 8.0} (i.e. equals `k/4` with `1 ≤ k ≤ 32`); inputs
below 0.25 sanitize to 0.25, inputs above 8 sanitize to 8, and non-numeric
input sanitizes to the minimum 0.25. -/
theorem sanitizeHours_spec :
    (∀ q : ℚ, ∃ k : ℤ, 1 ≤ k ∧ k ≤ 32 ∧ sanitizeHours (some q) = (k : ℚ) / 4) ∧
    (∀ q : ℚ, q < 1 / 4 → sanitizeHours (some q) = 1 / 4) ∧
    (∀ q : ℚ, 8 < q → sanitizeHours (some q) = 8) ∧
    sanitizeHours none = 1 / 4 := by
  refine ⟨?_, ?_, ?_, rfl⟩
  · intro q
    have hc1 : 1 / 4 ≤ (if q < 1 / 4 then (1 : ℚ) / 4 else if 8 < q then 8 else q) := by
      split
      · exact le_refl _
      · split
        · norm_num
        · rename_i hq _
          exact not_lt.mp hq
    have hc2 : (if q < 1 / 4 then (1 : ℚ) / 4 else if 8 < q then 8 else q) ≤ 8 := by
      split
      · norm_num
      · split
        · exact le_refl _
        · rename_i hq
          exact not_lt.mp hq
    refine ⟨(4 * (if q < 1 / 4 then (1 : ℚ) / 4 else if 8 < q then 8 else q) + 1 / 2).floor,
      ?_, ?_, rfl⟩
    · rw [ratFloor_eq]
      refine Int.le_floor.mpr ?_
      push_cast
      linarith
    · rw [ratFloor_eq]
      refine Int.floor_le_iff.mpr ?_
      push_cast
      linarith
  · intro q h
    rw [sanitizeHours, if_pos h, ratFloor_eq]
    norm_num
  · intro q h
    rw [sanitizeHours, if_neg (by linarith : ¬q < 1 / 4), if_pos h, ratFloor_eq]
    norm_num

/-- Witness for C7 at concrete inputs: 0 (below the range) sanitizes to 0.25
and 100 (above the range) sanitizes to 8. -/
theorem sanitizeHours_spec_witness :
    ((0 : ℚ) < 1 / 4 ∧ sanitizeHours (some 0) = 1 / 4) ∧
    ((8 : ℚ) < 100 ∧ sanitizeHours (some 100) = 8) :=
  ⟨⟨by norm_num, sanitizeHours_spec.2.1 0 (by norm_num)⟩,
   ⟨by norm_num, sanitizeHours_spec.2.2.1 100 (by norm_num)⟩⟩

/-! ## Claim C9 -/

/-- C9: the mock server endpoint responds 405 with an `Allow: POST` header to
any non-POST method; responds 400 with a message when the account field or
the token is empty/missing or the dates array is missing/empty; otherwise
responds 200 with `success: true` and the input dates echoed back; and an
unexpected exception yields 500 with "Internal server error". -/
theorem handler_spec (req : ApiRequest) (crash : Bool) :
    (req.method ≠ str "POST" →
       handler req crash = apiError 405 (str "Method Not Allowed") (some (str "POST"))) ∧
    (req.method = str "POST" → apiBadBody req.body = true →
       handler req crash = apiError 400 (str "Missing required fields") none) ∧
    (∀ d ds, req.method = str "POST" → req.body = some d → d.dates = some ds →
       apiBadBody req.body = false → crash = false →
       handler req crash =
         { status := 200, message := str "Timesheet submitted successfully",
           success := some true, submittedDates := some ds, allowHeader := none }) ∧
    (req.method = str "POST" → apiBadBody req.body = false → crash = true →
       handler req crash = apiError 500 (str "Internal server error") none) := by
  refine ⟨?_, ?_, ?_, ?_⟩
  · intro h
    rw [handler, if_pos h]
  · intro hm hbad
    rw [handler, if_neg (fun hne => hne hm), if_pos hbad]
  · intro d ds hm hbody hdates hgood hcr
    rw [handler, if_neg (fun hne => hne hm), if_neg (by simp [hgood]),
      if_neg (by simp [hcr])]
    simp [hbody, hdates]
  · intro hm hgood hcr
    rw [handler, if_neg (fun hne => hne hm), if_neg (by simp [hgood]), if_pos hcr]

/-- A GET request. -/
def getReq : ApiRequest := { method := str "GET", body := none }

/-- A complete request body. -/
def goodBody : ApiBody :=
  { userId := str "u1", jiraToken := str "t1", dates := some [str "20/Aug/25"] }

/-- A POST with a complete body. -/
def postGood : ApiRequest := { method := str "POST", body := some goodBody }

/-- A POST with no body. -/
def postBad : ApiRequest := { method := str "POST", body := none }

/-- Witness for C9 at concrete requests: GET gets 405 with `Allow: POST`, a
bodyless POST gets 400, a complete POST gets 200 echoing the dates, and a
crashing complete POST gets 500. -/
theorem handler_spec_witness :
    handler getReq false = apiError 405 (str "Method Not Allowed") (some (str "POST")) ∧
    handler postBad false = apiError 400 (str "Missing required fields") none ∧
    handler postGood false =
      { status := 200, message := str "Timesheet submitted successfully",
        success := some true, submittedDates := some [str "20/Aug/25"],
        allowHeader := none } ∧
    handler postGood true = apiError 500 (str "Internal server error") none :=
  ⟨(handler_spec getReq false).1 (by decide),
   (handler_spec postBad false).2.1 rfl rfl,
   (handler_spec postGood false).2.2.1 goodBody [str "20/Aug/25"] rfl rfl rfl (by decide) rfl,
   (handler_spec postGood true).2.2.2 rfl (by decide) rfl⟩

/-! ## Claim C10 -/

/-- A committed ticket entry holding only sanitized, schema-valid values:
each text field is in the image of its sanitizer and within the schema length
bounds, the hours are in the image of `sanitizeHours` and within `[0.25, 8]`,
and the work type is one of the declared enumeration values. -/
def TicketGood (t : Ticket) : Prop :=
  (∃ raw, t.description = sanitizeDescription raw) ∧
  1 ≤ t.description.length ∧ t.description.length ≤ 1000 ∧
  (∃ raw, t.ticketId = sanitizeTicketId raw) ∧
  1 ≤ t.ticketId.length ∧ t.ticketId.length ≤ 128 ∧
  (∃ raw, t.timeSpend = sanitizeHours raw) ∧
  1 / 4 ≤ t.timeSpend ∧ t.timeSpend ≤ 8 ∧
  (t.typeOfWork = WorkType.create ∨ t.typeOfWork = WorkType.review ∨
   t.typeOfWork = WorkType.study)

theorem handleNext_tickets (s : FormState) : (handleNext s).tickets = s.tickets := by
  rw [handleNext]
  split <;> rfl

theorem advanceToReview_tickets (s : FormState) :
    (advanceToReview s).tickets = s.tickets := by
  rw [advanceToReview]
  split <;> rfl

theorem handleSubmit_tickets (s : FormState) (b : Except Str Unit) :
    (handleSubmit s b).1.tickets = s.tickets := by
  simp only [handleSubmit]
  split
  · cases b <;> rfl
  · rfl

/-- Every user event preserves the all-tickets-sanitized-and-valid invariant:
only `handleAddTicket` inserts entries, and it inserts exactly the sanitized
draft after `TicketSchema` accepted it. -/
theorem stepAct_preserves_TicketGood (s : FormState) (a : Act)
    (h : ∀ t ∈ s.tickets, TicketGood t) :
    ∀ t ∈ (stepAct s a).tickets, TicketGood t := by
  cases a with
  | typeUsername raw => exact h
  | typeToken raw => exact h
  | typeDates raw => exact h
  | typeDraftTicketId raw => exact h
  | typeDraftDescription raw => exact h
  | typeDraftHours raw => exact h
  | pickDraftType w => exact h
  | next =>
    intro t ht
    rw [show (stepAct s Act.next).tickets = (handleNext s).tickets from rfl,
      handleNext_tickets] at ht
    exact h t ht
  | review =>
    intro t ht
    rw [show (stepAct s Act.review).tickets = (advanceToReview s).tickets from rfl,
      advanceToReview_tickets] at ht
    exact h t ht
  | submit b =>
    intro t ht
    rw [show (stepAct s (Act.submit b)).tickets = (handleSubmit s b).1.tickets from rfl,
      handleSubmit_tickets] at ht
    exact h t ht
  | removeTicket i =>
    intro t ht
    have ht2 : t ∈ s.tickets.filter (fun t => decide (t.id ≠ i)) := ht
    exact h t (List.mem_filter.mp ht2).1
  | reset =>
    intro t ht
    exact absurd ht (List.not_mem_nil t)
  | addTicket freshId =>
    by_cases hv : ticketIssues (sanitizeDraft s.currentTicket) = []
    · intro t ht
      rw [show (stepAct s (Act.addTicket freshId)).tickets
            = (handleAddTicket s freshId).tickets from rfl,
        ((handleAddTicket_spec s freshId).2 hv).1] at ht
      rcases List.mem_append.mp ht with hold | hnew
      · exact h t hold
      · rw [List.mem_singleton] at hnew
        subst hnew
        have hb := (ticketIssues_nil_iff (sanitizeDraft s.currentTicket)).mp hv
        exact ⟨⟨s.currentTicket.description, rfl⟩, hb.1, hb.2.1,
          ⟨s.currentTicket.ticketId, rfl⟩, hb.2.2.2.2.1, hb.2.2.2.2.2,
          ⟨some s.currentTicket.timeSpend, rfl⟩, hb.2.2.1, hb.2.2.2.1,
          by cases hw : s.currentTicket.typeOfWork
             · exact Or.inl hw
             · exact Or.inr (Or.inl hw)
             · exact Or.inr (Or.inr hw)⟩
    · intro t ht
      rw [show (stepAct s (Act.addTicket freshId)).tickets
            = (handleAddTicket s freshId).tickets from rfl,
        ((handleAddTicket_spec s freshId).1 hv).1] at ht
      exact h t ht
  | backToSetup => exact h
  | backToLog => exact h

/-- C10: along every event trace of the canonical 4-step form, every entry of
the committed tickets list holds only sanitized, schema-valid values — its
description and ticketId are sanitizer images within the 1..1000 and 1..128
length bounds, its timeSpend is a `sanitizeHours` image inside `[0.25, 8]`,
and its typeOfWork is a declared enumeration value — because `addTicket` is
the only inserting operation and it commits exactly the sanitized draft after
validation. -/
theorem tickets_invariant (acts : List Act) : ∀ t ∈ (run acts).tickets, TicketGood t := by
  have main : ∀ (l : List Act) (s : FormState), (∀ t ∈ s.tickets, TicketGood t) →
      ∀ t ∈ (l.foldl stepAct s).tickets, TicketGood t := by
    intro l
    induction l with
    | nil => exact fun s hs => hs
    | cons a rest ih =>
      intro s hs
      rw [List.foldl_cons]
      exact ih _ (stepAct_preserves_TicketGood s a hs)
  exact main acts initialState (fun t ht => absurd ht (List.not_mem_nil t))

/-- A concrete trace: fill the draft with valid values and add it. -/
def demoTrace : List Act :=
  [Act.typeDraftDescription (str "fix bug"), Act.typeDraftTicketId (str "PROJ-1"),
   Act.typeDraftHours (some 2), Act.addTicket (str "1")]

/-- Witness for C10: the ticket committed by the concrete trace is in the
final tickets list and satisfies the invariant. -/
theorem tickets_invariant_witness :
    okTicket ∈ (run demoTrace).tickets ∧ TicketGood okTicket := by
  have e1 : sanitizeDescription (str "fix bug") = str "fix bug" := by decide
  have e2 : sanitizeTicketId (str "PROJ-1") = str "PROJ-1" := by decide
  have hv : ticketIssues (sanitizeDraft draftOk) = [] := by
    rw [sanitizeDraft_draftOk]
    exact ticketIssues_draftOk
  have hstate : typeDraftHours (typeDraftTicketId (typeDraftDescription initialState
      (str "fix bug")) (str "PROJ-1")) (some 2)
      = { initialState with currentTicket := draftOk } := by
    simp [typeDraftDescription, typeDraftTicketId, typeDraftHours, initialState,
      defaultTicket, draftOk, e1, e2, sanitizeHours_two]
  have h3 : run demoTrace
      = handleAddTicket { initialState with currentTicket := draftOk } (str "1") := by
    rw [show run demoTrace = handleAddTicket (typeDraftHours (typeDraftTicketId
      (typeDraftDescription initialState (str "fix bug")) (str "PROJ-1")) (some 2))
      (str "1") from rfl, hstate]
  have hrun : (run demoTrace).tickets = [okTicket] := by
    rw [h3]
    have happ := (handleAddTicket_spec { initialState with currentTicket := draftOk }
      (str "1")).2 hv
    rw [happ.1]
    show [] ++ [{ sanitizeDraft draftOk with id := str "1" }] = [okTicket]
    rw [sanitizeDraft_draftOk]
    rfl
  constructor
  · rw [hrun]
    exact List.mem_singleton.mpr rfl
  · exact tickets_invariant demoTrace okTicket (by rw [hrun]; exact List.mem_singleton.mpr rfl)

/-! ## Claim C6: relating the regex recognizer to the claim's characterization

Character-class facts, comma-splitting lemmas, and the decomposition of the
token parser, leading to the equivalence between `isValidDatesListL` and
`validDatesSpec`. -/

theorem ws_not_comma {c : Char} (h : isWsC c = true) : c ≠ ',' := by
  intro hc
  subst hc
  exact absurd h (by decide)

theorem digit_not_comma_ws {c : Char} (h : c.isDigit = true) :
    c ≠ ',' ∧ isWsC c = false := by
  constructor
  · intro hc
    subst hc
    exact absurd h (by decide)
  · cases hw : isWsC c
    · rfl
    · exfalso
      simp only [isWsC, Bool.or_eq_true, decide_eq_true_eq] at hw
      rcases hw with ((h1 | h1) | h1) | h1 <;> (subst h1; exact absurd h (by decide))

theorem alpha_not_comma_ws {c : Char} (h : c.isAlpha = true) :
    c ≠ ',' ∧ isWsC c = false := by
  constructor
  · intro hc
    subst hc
    exact absurd h (by decide)
  · cases hw : isWsC c
    · rfl
    · exfalso
      simp only [isWsC, Bool.or_eq_true, decide_eq_true_eq] at hw
      rcases hw with ((h1 | h1) | h1) | h1 <;> (subst h1; exact absurd h (by decide))

theorem dropWhile_head_false {p : Char → Bool} {l t : Str} {d : Char}
    (h : l.dropWhile p = d :: t) : p d = false := by
  induction l with
  | nil => simp at h
  | cons a l2 ih =>
    rw [List.dropWhile_cons] at h
    split at h
    · exact ih h
    · rename_i hp
      injection h with h1 _
      subst h1
      simpa using hp

theorem dropWhile_ws_append {xs : Str} (h : ∀ c ∈ xs, isWsC c = true) (ys : Str) :
    (xs ++ ys).dropWhile isWsC = ys.dropWhile isWsC := by
  induction xs with
  | nil => rfl
  | cons c t ih =>
    rw [List.cons_append, List.dropWhile_cons, if_pos (h c (List.mem_cons_self c t))]
    exact ih (fun d hd => h d (List.mem_cons_of_mem c hd))

theorem splitCommaAux_comma (r : Str) :
    splitCommaAux (',' :: r) = ([], (splitCommaAux r).1 :: (splitCommaAux r).2) := by
  simp [splitCommaAux]

theorem splitCommaAux_notcomma {c : Char} (h : c ≠ ',') (r : Str) :
    splitCommaAux (c :: r) = (c :: (splitCommaAux r).1, (splitCommaAux r).2) := by
  simp [splitCommaAux, h]

theorem splitCommaAux_append_nocomma {xs : Str} (h : ∀ c ∈ xs, c ≠ ',') (ys : Str) :
    splitCommaAux (xs ++ ys) = (xs ++ (splitCommaAux ys).1, (splitCommaAux ys).2) := by
  induction xs with
  | nil => simp
  | cons c t ih =>
    rw [List.cons_append, splitCommaAux_notcomma (h c (List.mem_cons_self c t)),
      ih (fun d hd => h d (List.mem_cons_of_mem c hd)), List.cons_append]

/-- Re-insert the commas removed by `splitCommaAux` (tail part). -/
def unsep : List Str → Str
  | [] => []
  | t :: ts => ',' :: (t ++ unsep ts)

theorem splitCommaAux_unsplit (cs : Str) :
    (splitCommaAux cs).1 ++ unsep (splitCommaAux cs).2 = cs := by
  induction cs with
  | nil => rfl
  | cons c r ih =>
    by_cases hc : c = ','
    · subst hc
      rw [splitCommaAux_comma]
      show [] ++ (',' :: ((splitCommaAux r).1 ++ unsep (splitCommaAux r).2)) = ',' :: r
      rw [List.nil_append, ih]
    · rw [splitCommaAux_notcomma hc, List.cons_append, ih]

theorem isMYTail_eq_true {cs : Str} (h : isMYTail cs = true) :
    ∃ a1 a2 a3 y1 y2, cs = [a1, a2, a3, '/', y1, y2] ∧
      a1.isAlpha = true ∧ a2.isAlpha = true ∧ a3.isAlpha = true ∧
      y1.isDigit = true ∧ y2.isDigit = true := by
  rcases cs with _ | ⟨a1, _ | ⟨a2, _ | ⟨a3, _ | ⟨s4, _ | ⟨y1, _ | ⟨y2, _ | ⟨z, t⟩⟩⟩⟩⟩⟩⟩
  · simp [isMYTail] at h
  · simp [isMYTail] at h
  · simp [isMYTail] at h
  · simp [isMYTail] at h
  · simp [isMYTail] at h
  · simp [isMYTail] at h
  · simp only [isMYTail, Bool.and_eq_true] at h
    obtain ⟨⟨⟨⟨⟨ha1, ha2⟩, ha3⟩, hs⟩, hy1⟩, hy2⟩ := h
    have hs' : s4 = '/' := by simpa [isSlash] using hs
    subst hs'
    exact ⟨a1, a2, a3, y1, y2, rfl, ha1, ha2, ha3, hy1, hy2⟩
  · simp [isMYTail] at h

theorem isMYTail_len {cs : Str} (h : isMYTail cs = true) : cs.length = 6 := by
  obtain ⟨a1, a2, a3, y1, y2, hshape, -, -, -, -, -⟩ := isMYTail_eq_true h
  rw [hshape]
  rfl

theorem myRest_eq_some {cs r : Str} (h : myRest cs = some r) :
    ∃ a1 a2 a3 y1 y2, cs = [a1, a2, a3, '/', y1, y2] ++ r ∧
      a1.isAlpha = true ∧ a2.isAlpha = true ∧ a3.isAlpha = true ∧
      y1.isDigit = true ∧ y2.isDigit = true := by
  rcases cs with _ | ⟨a1, _ | ⟨a2, _ | ⟨a3, _ | ⟨s4, _ | ⟨y1, _ | ⟨y2, rr⟩⟩⟩⟩⟩⟩
  · simp [myRest] at h
  · simp [myRest] at h
  · simp [myRest] at h
  · simp [myRest] at h
  · simp [myRest] at h
  · simp [myRest] at h
  · simp only [myRest] at h
    split at h
    · rename_i hconds
      injection h with hr
      subst hr
      simp only [Bool.and_eq_true] at hconds
      obtain ⟨⟨⟨⟨⟨ha1, ha2⟩, ha3⟩, hs⟩, hy1⟩, hy2⟩ := hconds
      have hs' : s4 = '/' := by simpa [isSlash] using hs
      subst hs'
      exact ⟨a1, a2, a3, y1, y2, rfl, ha1, ha2, ha3, hy1, hy2⟩
    · exact Option.noConfusion h

theorem dateTokenRest_eq_some {cs r : Str} (h : dateTokenRest cs = some r) :
    ∃ tok, cs = tok ++ r ∧ isDateToken tok = true ∧ tok ≠ [] ∧
      ∀ c ∈ tok, c ≠ ',' ∧ isWsC c = false := by
  rcases cs with _ | ⟨x1, _ | ⟨x2, rest⟩⟩
  · simp [dateTokenRest] at h
  · simp [dateTokenRest] at h
  · simp only [dateTokenRest] at h
    split at h
    · rename_i hx1
      split at h
      · rename_i hx2
        rcases rest with _ | ⟨s4, r2⟩
        · exact Option.noConfusion h
        · have h2 : (if isSlash s4 then myRest r2 else none) = some r := h
          split at h2
          · rename_i hs4
            have hs4' : s4 = '/' := by simpa [isSlash] using hs4
            subst hs4'
            obtain ⟨a1, a2, a3, y1, y2, hcs, ha1, ha2, ha3, hy1, hy2⟩ := myRest_eq_some h2
            subst hcs
            refine ⟨[x1, x2, '/', a1, a2, a3, '/', y1, y2], rfl, ?_, by simp, ?_⟩
            · simp [isDateToken, isMYTail, isSlash, hx1, hx2, ha1, ha2, ha3, hy1, hy2]
            · intro c hc
              simp only [List.mem_cons, List.not_mem_nil, or_false] at hc
              rcases hc with rfl | rfl | rfl | rfl | rfl | rfl | rfl | rfl | rfl
              · exact digit_not_comma_ws hx1
              · exact digit_not_comma_ws hx2
              · exact ⟨by decide, by decide⟩
              · exact alpha_not_comma_ws ha1
              · exact alpha_not_comma_ws ha2
              · exact alpha_not_comma_ws ha3
              · exact ⟨by decide, by decide⟩
              · exact digit_not_comma_ws hy1
              · exact digit_not_comma_ws hy2
          · exact Option.noConfusion h2
      · split at h
        · rename_i hs2
          have hs2' : x2 = '/' := by simpa [isSlash] using hs2
          subst hs2'
          obtain ⟨a1, a2, a3, y1, y2, hcs, ha1, ha2, ha3, hy1, hy2⟩ := myRest_eq_some h
          subst hcs
          refine ⟨[x1, '/', a1, a2, a3, '/', y1, y2], rfl, ?_, by simp, ?_⟩
          · simp [isDateToken, isMYTail, isSlash, hx1, ha1, ha2, ha3, hy1, hy2]
          · intro c hc
            simp only [List.mem_cons, List.not_mem_nil, or_false] at hc
            rcases hc with rfl | rfl | rfl | rfl | rfl | rfl | rfl | rfl
            · exact digit_not_comma_ws hx1
            · exact ⟨by decide, by decide⟩
            · exact alpha_not_comma_ws ha1
            · exact alpha_not_comma_ws ha2
            · exact alpha_not_comma_ws ha3
            · exact ⟨by decide, by decide⟩
            · exact digit_not_comma_ws hy1
            · exact digit_not_comma_ws hy2
        · exact Option.noConfusion h
    · exact Option.noConfusion h

theorem isDateToken_shape {tok : Str} (h : isDateToken tok = true) :
    (∃ x1 a1 a2 a3 y1 y2, tok = [x1, '/', a1, a2, a3, '/', y1, y2] ∧
       x1.isDigit = true ∧ a1.isAlpha = true ∧ a2.isAlpha = true ∧ a3.isAlpha = true ∧
       y1.isDigit = true ∧ y2.isDigit = true) ∨
    (∃ x1 x2 a1 a2 a3 y1 y2, tok = [x1, x2, '/', a1, a2, a3, '/', y1, y2] ∧
       x1.isDigit = true ∧ x2.isDigit = true ∧ a1.isAlpha = true ∧ a2.isAlpha = true ∧
       a3.isAlpha = true ∧ y1.isDigit = true ∧ y2.isDigit = true) := by
  rcases tok with _ | ⟨x1, _ | ⟨x2, _ | ⟨x3, rest⟩⟩⟩
  · simp [isDateToken] at h
  · simp [isDateToken] at h
  · simp [isDateToken] at h
  · simp only [isDateToken, Bool.or_eq_true, Bool.and_eq_true] at h
    rcases h with ⟨⟨hx1, hs2⟩, hmy⟩ | ⟨⟨⟨hx1, hx2⟩, hs3⟩, hmy⟩
    · have hs2' : x2 = '/' := by simpa [isSlash] using hs2
      subst hs2'
      obtain ⟨a1, a2, a3, y1, y2, hshape, ha1, ha2, ha3, hy1, hy2⟩ := isMYTail_eq_true hmy
      exact Or.inl ⟨x1, a1, a2, a3, y1, y2, by rw [show x3 :: rest = _ from hshape],
        hx1, ha1, ha2, ha3, hy1, hy2⟩
    · have hs3' : x3 = '/' := by simpa [isSlash] using hs3
      subst hs3'
      obtain ⟨a1, a2, a3, y1, y2, hshape, ha1, ha2, ha3, hy1, hy2⟩ := isMYTail_eq_true hmy
      exact Or.inr ⟨x1, x2, a1, a2, a3, y1, y2, by rw [show rest = _ from hshape],
        hx1, hx2, ha1, ha2, ha3, hy1, hy2⟩

theorem slash_not_digit : ('/' : Char).isDigit = false := by decide

theorem dateTokenRest_append {tok : Str} (h : isDateToken tok = true) (r : Str) :
    dateTokenRest (tok ++ r) = some r := by
  rcases isDateToken_shape h with
    ⟨x1, a1, a2, a3, y1, y2, hshape, hx1, ha1, ha2, ha3, hy1, hy2⟩ |
    ⟨x1, x2, a1, a2, a3, y1, y2, hshape, hx1, hx2, ha1, ha2, ha3, hy1, hy2⟩
  · subst hshape
    simp [dateTokenRest, myRest, isSlash, slash_not_digit, hx1, ha1, ha2, ha3, hy1, hy2]
  · subst hshape
    simp [dateTokenRest, myRest, isSlash, hx1, hx2, ha1, ha2, ha3, hy1, hy2]

theorem isDateToken_append_nil {tok u : Str} (h1 : isDateToken tok = true)
    (h2 : isDateToken (tok ++ u) = true) : u = [] := by
  rcases u with _ | ⟨c, u2⟩
  · rfl
  · exfalso
    rcases isDateToken_shape h1 with
      ⟨x1, a1, a2, a3, y1, y2, hshape, hx1, -, -, -, -, -⟩ |
      ⟨x1, x2, a1, a2, a3, y1, y2, hshape, hx1, hx2, -, -, -, -, -⟩
    · subst hshape
      simp only [List.cons_append, List.nil_append] at h2
      simp only [isDateToken, Bool.or_eq_true, Bool.and_eq_true] at h2
      rcases h2 with ⟨⟨-, -⟩, hmy⟩ | ⟨⟨⟨-, hdig⟩, -⟩, -⟩
      · have hl := isMYTail_len hmy
        simp only [List.length_cons] at hl
        omega
      · exact absurd hdig (by decide)
    · subst hshape
      simp only [List.cons_append, List.nil_append] at h2
      simp only [isDateToken, Bool.or_eq_true, Bool.and_eq_true] at h2
      rcases h2 with ⟨⟨-, hs⟩, -⟩ | ⟨⟨⟨-, -⟩, -⟩, hmy⟩
      · have hs' : x2 = '/' := by simpa [isSlash] using hs
        subst hs'
        exact absurd hx2 (by decide)
      · have hl := isMYTail_len hmy
        simp only [List.length_cons] at hl
        omega

/-- The claim-side property of the input remaining after one date token: no
characters before the next comma, and every later comma-segment is a date
token after dropping the whitespace that follows the comma. -/
def restSpec (cs : Str) : Prop :=
  (splitCommaAux cs).1 = [] ∧
    ∀ t ∈ (splitCommaAux cs).2, isDateToken (t.dropWhile isWsC) = true

theorem datesLoop_iff (fuel : Nat) : ∀ cs : Str, cs.length ≤ fuel →
    (datesLoop fuel cs = true ↔ restSpec cs) := by
  induction fuel with
  | zero =>
    intro cs hl
    have hnil : cs = [] := List.length_eq_zero.mp (Nat.le_zero.mp hl)
    subst hnil
    simp [datesLoop, restSpec, splitCommaAux]
  | succ f ih =>
    intro cs hl
    rcases cs with _ | ⟨c, r⟩
    · simp [datesLoop, restSpec, splitCommaAux]
    · by_cases hc : c = ','
      · subst hc
        have hws : ∀ d ∈ r.takeWhile isWsC, isWsC d = true :=
          fun d hd => List.mem_takeWhile_imp hd
        have hwnc : ∀ d ∈ r.takeWhile isWsC, d ≠ ',' :=
          fun d hd => ws_not_comma (hws d hd)
        have hwr : r.takeWhile isWsC ++ r.dropWhile isWsC = r :=
          List.takeWhile_append_dropWhile isWsC r
        cases hdt : dateTokenRest (r.dropWhile isWsC) with
        | none =>
          have hfalse : datesLoop (f + 1) (',' :: r) = false := by
            simp [datesLoop, hdt]
          rw [hfalse]
          simp only [Bool.false_eq_true, false_iff]
          rintro ⟨-, h2⟩
          have hmem : (splitCommaAux r).1 ∈ (splitCommaAux (',' :: r)).2 := by
            rw [splitCommaAux_comma]
            exact List.mem_cons_self _ _
          have htokseg := h2 _ hmem
          have hsplitr : splitCommaAux r
              = (r.takeWhile isWsC ++ (splitCommaAux (r.dropWhile isWsC)).1,
                 (splitCommaAux (r.dropWhile isWsC)).2) := by
            have e2 := splitCommaAux_append_nocomma hwnc (r.dropWhile isWsC)
            rw [hwr] at e2
            exact e2
          rw [hsplitr] at htokseg
          have htokseg2 : isDateToken
              ((r.takeWhile isWsC ++ (splitCommaAux (r.dropWhile isWsC)).1).dropWhile isWsC)
              = true := htokseg
          rw [dropWhile_ws_append hws] at htokseg2
          rcases hr2 : (splitCommaAux (r.dropWhile isWsC)).1 with _ | ⟨d, seg⟩
          · rw [hr2] at htokseg2
            simp [isDateToken] at htokseg2
          · rw [hr2] at htokseg2
            have huns := splitCommaAux_unsplit (r.dropWhile isWsC)
            rw [hr2] at huns
            have hdws : isWsC d = false := by
              apply dropWhile_head_false (p := isWsC) (l := r)
              exact huns.symm
            rw [List.dropWhile_cons, if_neg (by simp [hdws])] at htokseg2
            have happ := dateTokenRest_append htokseg2
              (unsep (splitCommaAux (r.dropWhile isWsC)).2)
            rw [show (d :: seg) ++ unsep (splitCommaAux (r.dropWhile isWsC)).2
                  = r.dropWhile isWsC from huns] at happ
            rw [hdt] at happ
            exact Option.noConfusion happ
        | some r3 =>
          obtain ⟨tok, hdecomp, htok, htne, htchars⟩ := dateTokenRest_eq_some hdt
          have htnc : ∀ d ∈ tok, d ≠ ',' := fun d hd => (htchars d hd).1
          have hstep : datesLoop (f + 1) (',' :: r) = datesLoop f r3 := by
            simp [datesLoop, hdt]
          have hr3 : r3.length ≤ f := by
            have hd1 : (r.dropWhile isWsC).length ≤ r.length :=
              (List.dropWhile_sublist isWsC).length_le
            have hd2 : (r.dropWhile isWsC).length = tok.length + r3.length := by
              rw [hdecomp, List.length_append]
            have hd3 : 1 ≤ tok.length := by
              rcases tok with _ | ⟨t0, tt⟩
              · exact absurd rfl htne
              · simp
            have hd4 : r.length + 1 ≤ f + 1 := by simpa using hl
            omega
          rw [hstep, ih r3 hr3]
          have hsplitr : splitCommaAux r
              = (r.takeWhile isWsC ++ (tok ++ (splitCommaAux r3).1),
                 (splitCommaAux r3).2) := by
            have e1 := splitCommaAux_append_nocomma htnc r3
            have e2 := splitCommaAux_append_nocomma hwnc (r.dropWhile isWsC)
            rw [hwr] at e2
            rw [hdecomp, e1] at e2
            exact e2
          have hfirstdrop : ((splitCommaAux r).1).dropWhile isWsC
              = tok ++ (splitCommaAux r3).1 := by
            rw [hsplitr]
            show (r.takeWhile isWsC ++ (tok ++ (splitCommaAux r3).1)).dropWhile isWsC = _
            rw [dropWhile_ws_append hws]
            rcases tok with _ | ⟨t0, tt⟩
            · exact absurd rfl htne
            · rw [List.cons_append, List.dropWhile_cons,
                if_neg (by simp [(htchars t0 (List.mem_cons_self _ _)).2])]
          constructor
          · rintro ⟨h1, h2⟩
            constructor
            · rw [splitCommaAux_comma]
            · intro t ht
              rw [splitCommaAux_comma] at ht
              rcases List.mem_cons.mp ht with heq | htm
              · subst heq
                rw [hfirstdrop, h1, List.append_nil]
                exact htok
              · rw [hsplitr] at htm
                exact h2 t htm
          · rintro ⟨-, h2⟩
            have hmem : (splitCommaAux r).1 ∈ (splitCommaAux (',' :: r)).2 := by
              rw [splitCommaAux_comma]
              exact List.mem_cons_self _ _
            have hfirst := h2 _ hmem
            rw [hfirstdrop] at hfirst
            refine ⟨isDateToken_append_nil htok hfirst, ?_⟩
            intro t ht
            apply h2
            rw [splitCommaAux_comma]
            refine List.mem_cons_of_mem _ ?_
            rw [hsplitr]
            exact ht
      · have hfalse : datesLoop (f + 1) (c :: r) = false := by
          simp [datesLoop, hc]
        rw [hfalse]
        simp only [Bool.false_eq_true, false_iff]
        rintro ⟨h1, -⟩
        rw [splitCommaAux_notcomma hc] at h1
        exact absurd h1 (by simp)

/-- The regex recognizer agrees with the claim's segment-wise
characterization on every input. -/
theorem isValidDatesListL_iff_spec (cs : Str) :
    isValidDatesListL cs = true ↔ validDatesSpec cs = true := by
  cases hdt : dateTokenRest cs with
  | none =>
    have hfalse : isValidDatesListL cs = false := by
      simp [isValidDatesListL, hdt]
    rw [hfalse]
    simp only [Bool.false_eq_true, false_iff]
    intro hv
    simp only [validDatesSpec, Bool.and_eq_true, List.all_eq_true] at hv
    obtain ⟨⟨-, hfst⟩, -⟩ := hv
    have happ := dateTokenRest_append hfst (unsep (splitCommaAux cs).2)
    rw [splitCommaAux_unsplit cs] at happ
    rw [hdt] at happ
    exact Option.noConfusion happ
  | some r =>
    obtain ⟨tok, hdecomp, htok, htne, htchars⟩ := dateTokenRest_eq_some hdt
    have hL : isValidDatesListL cs = datesLoop cs.length r := by
      simp [isValidDatesListL, hdt]
    have hrl : r.length ≤ cs.length := by
      rw [hdecomp, List.length_append]
      omega
    rw [hL, datesLoop_iff cs.length r hrl]
    have hsr : splitCommaAux cs = (tok ++ (splitCommaAux r).1, (splitCommaAux r).2) := by
      rw [hdecomp]
      exact splitCommaAux_append_nocomma (fun d hd => (htchars d hd).1) r
    constructor
    · rintro ⟨h1, h2⟩
      simp only [validDatesSpec, Bool.and_eq_true, List.all_eq_true]
      refine ⟨⟨?_, ?_⟩, ?_⟩
      · rw [hdecomp]
        rcases tok with _ | ⟨t0, tt⟩
        · exact absurd rfl htne
        · rfl
      · rw [hsr]
        show isDateToken (tok ++ (splitCommaAux r).1) = true
        rw [h1, List.append_nil]
        exact htok
      · intro t ht
        rw [hsr] at ht
        exact h2 t ht
    · intro hv
      simp only [validDatesSpec, Bool.and_eq_true, List.all_eq_true] at hv
      obtain ⟨⟨-, hfst⟩, hall⟩ := hv
      rw [hsr] at hfst
      have hfst2 : isDateToken (tok ++ (splitCommaAux r).1) = true := hfst
      refine ⟨isDateToken_append_nil htok hfst2, ?_⟩
      intro t ht
      apply hall
      rw [hsr]
      exact ht

/-- C6: the date-list validator returns true exactly when the string is
non-empty, its first comma-separated segment matches the grammar
`D{1,2}/MON/YY` with a 3-letter month, and every later segment matches it
after the optional whitespace following the comma; in particular it accepts
"20/Aug/25, 21/Aug/25", accepts "20/Aug/25,21/Aug/25", accepts a single
token with no trailing comma, and rejects "" and "20/August/25". -/
theorem isValidDatesList_spec :
    (∀ s : String, isValidDatesList s = true ↔ validDatesSpec s.toList = true) ∧
    isValidDatesList "20/Aug/25, 21/Aug/25" = true ∧
    isValidDatesList "20/Aug/25,21/Aug/25" = true ∧
    isValidDatesList "20/Aug/25" = true ∧
    isValidDatesList "" = false ∧
    isValidDatesList "20/August/25" = false :=
  ⟨fun s => isValidDatesListL_iff_spec s.toList,
   by decide, by decide, by decide, by decide, by decide⟩
